import Mathlib

/-!
Shallow embedding of the trade-dashboard engine from `src/main.rs`.

Conventions of the embedding:
* Rust `String` values are modelled as `List Char`; `to_lowercase` /
  `to_uppercase` become `List.map Char.toLower` / `List.map Char.toUpper`
  (all strings involved in comparisons are ASCII tags and tickers).
* Rust byte indices into a `String` (used by `cursor_position`,
  `String::insert`, `String::remove`) are modelled against the UTF-8 byte
  layout via `Char.utf8Size`; the panicking branches of `insert` / `remove`
  (index out of range or not on a character boundary) are modelled as `none`.
* `f64` quantities are modelled generically: balance updates are
  parametrised over an arbitrary carrier `α` with arbitrary addition and
  subtraction operations `fadd fsub : α → α → α` and a zero element, so a
  theorem proved for all `(α, fadd, fsub, zero)` holds in particular for
  IEEE doubles bit-for-bit; concrete scenarios instantiate `α := ℚ` (the
  arithmetic appearing in them is exact in `f64` as well).
* The `f32` scrollbar arithmetic of `draw_trades_table` is modelled as
  exact rational arithmetic, with the nonnegative-float-to-integer cast
  `as u16` modelled as truncation (floor).
* `HashMap<String, HashMap<String, f64>>` is modelled as a total function
  `List Char → List Char → Option α`: `none` means the key is absent,
  `some v` that it is present with value `v` (iteration order never matters
  for the properties below).
* The sqlite side effects of `add_trade` do not touch the in-memory state
  (failures are logged and ignored), so they are omitted.
-/

/-- Rust `String`, as its sequence of characters. -/
abbrev Str := List Char

/-- Rust `str::to_lowercase` (ASCII fragment). -/
def lowerStr (s : Str) : Str := s.map Char.toLower

/-- Rust `str::to_uppercase` (ASCII fragment). -/
def upperStr (s : Str) : Str := s.map Char.toUpper

/-- The `Trade` struct of `main.rs`. -/
structure Trade (α : Type) where
  timestamp : Str
  trade_type_val : Str
  action : Str
  username : Str
  amount : α
  coin_symbol : Str
  total_value : α
  price : α
deriving DecidableEq

/-- The `InputMode` enum of `main.rs`. -/
inductive InputMode where
  | Normal
  | Editing
deriving DecidableEq

/-- The key codes dispatched on in `run_app`'s input handling. -/
inductive KeyCode where
  | char (c : Char)
  | enter
  | backspace
  | left
  | right
  | esc
  | home
  | endKey
  | up
  | down
  | pageUp
  | pageDown
  | otherKey
deriving DecidableEq

/-- The balance table `HashMap<String, HashMap<String, f64>>`:
`none` = key absent, `some v` = key present with value `v`. -/
def Bal (α : Type) := Str → Str → Option α

/-- The `App` struct of `main.rs`. -/
structure App (α : Type) where
  search_input : Str
  active_search_symbol : Option Str
  all_trades : List (Trade α)
  user_balances : Bal α
  scroll_offset : Nat
  trade_type_filter : Option Str
  input_mode : InputMode
  cursor_position : Nat

/-- `App::new`. -/
def App.new (initial_trades : List (Trade α)) : App α where
  search_input := []
  active_search_symbol := none
  all_trades := initial_trades
  user_balances := fun _ _ => none
  scroll_offset := 0
  trade_type_filter := none
  input_mode := InputMode.Normal
  cursor_position := 0

/-- The balance-update step shared by `App::add_trade` and
`App::recalculate_balances_from_trades`: `entry(username).or_insert_with`,
`entry(coin_symbol).or_insert(0.0)`, then `+= amount` on `"BUY"`,
`-= amount` on `"SELL"`, and no change otherwise (the entry is still
created by `or_insert`). -/
def applyDelta (fadd fsub : α → α → α) (zero : α) (bal : Bal α) (t : Trade α) : Bal α :=
  let cur := (bal t.username t.coin_symbol).getD zero
  let newVal :=
    if t.action == "BUY".toList then fadd cur t.amount
    else if t.action == "SELL".toList then fsub cur t.amount
    else cur
  fun u c => if u = t.username ∧ c = t.coin_symbol then some newVal else bal u c

/-- `App::recalculate_balances_from_trades` as a function of the log:
clear the table, then replay `all_trades.iter().rev()` (oldest to newest)
with the shared update step. -/
def recompute (fadd fsub : α → α → α) (zero : α) (log : List (Trade α)) : Bal α :=
  log.reverse.foldl (applyDelta fadd fsub zero) (fun _ _ => none)

/-- `App::add_trade` (the sqlite append is fire-and-forget and does not
touch the in-memory state): update the balance entry, then
`all_trades.insert(0, trade)`. -/
def App.add_trade (fadd fsub : α → α → α) (zero : α) (s : App α) (t : Trade α) : App α :=
  { s with
    user_balances := applyDelta fadd fsub zero s.user_balances t
    all_trades := t :: s.all_trades }

/-- `App::recalculate_balances_from_trades`. -/
def App.recalculate_balances_from_trades (fadd fsub : α → α → α) (zero : α)
    (s : App α) : App α :=
  { s with user_balances := recompute fadd fsub zero s.all_trades }

/-- Ingesting a sequence of trades one at a time, oldest first. -/
def ingestAll (fadd fsub : α → α → α) (zero : α) (s : App α) (ts : List (Trade α)) : App α :=
  ts.foldl (App.add_trade fadd fsub zero) s

/-- The local `trades_after_type_filter` of `App::get_visible_trades`. -/
def App.trades_after_type_filter (s : App α) : List (Trade α) :=
  match s.trade_type_filter with
  | none => s.all_trades
  | some specific_filter_type =>
      s.all_trades.filter
        (fun t => lowerStr t.trade_type_val == lowerStr specific_filter_type)

/-- `App::get_visible_trades`. -/
def App.get_visible_trades (s : App α) : List (Trade α) :=
  match s.active_search_symbol with
  | some symbol =>
      s.trades_after_type_filter.filter (fun t => upperStr t.coin_symbol == symbol)
  | none => s.trades_after_type_filter

/-- `App::scroll_up`. -/
def App.scroll_up (s : App α) : App α :=
  if s.scroll_offset > 0 then { s with scroll_offset := s.scroll_offset - 1 } else s

/-- `App::scroll_down`. -/
def App.scroll_down (s : App α) (num_visible_items : Nat) : App α :=
  let total_items := s.get_visible_trades.length
  if total_items > 0 ∧ s.scroll_offset < total_items - 1 then
    if total_items > num_visible_items ∧ s.scroll_offset < total_items - num_visible_items then
      { s with scroll_offset := s.scroll_offset + 1 }
    else if total_items ≤ num_visible_items ∧ s.scroll_offset < total_items - 1 then
      { s with scroll_offset := s.scroll_offset + 1 }
    else if total_items > num_visible_items ∧ s.scroll_offset ≥ total_items - num_visible_items then
      { s with scroll_offset := total_items - num_visible_items }
    else s
  else s

/-- `App::toggle_trade_type_filter`. -/
def App.toggle_trade_type_filter (s : App α) : App α :=
  let f : Option Str :=
    match s.trade_type_filter with
    | some l =>
        if l == "live-trade".toList then some ("all-trades".toList)
        else if l == "all-trades".toList then some ("live-trade".toList)
        else some ("live-trade".toList)
    | none => some ("all-trades".toList)
  { s with trade_type_filter := f, scroll_offset := 0 }

/-- Byte length of a Rust string (`String::len`). -/
def byteLen (s : Str) : Nat := (s.map Char.utf8Size).sum

/-- `String::insert(i, c)` on the UTF-8 byte index `i`: `none` models the
panic when `i` is out of range or not on a character boundary. -/
def insertAtByte (s : Str) (i : Nat) (c : Char) : Option Str :=
  match s, i with
  | s, 0 => some (c :: s)
  | [], _ + 1 => none
  | a :: s, i + 1 =>
      if i + 1 < a.utf8Size then none
      else (insertAtByte s (i + 1 - a.utf8Size) c).map (a :: ·)

/-- `String::remove(i)` on the UTF-8 byte index `i`: `none` models the
panic when `i` is out of range or not on a character boundary. -/
def removeAtByte (s : Str) (i : Nat) : Option Str :=
  match s, i with
  | [], _ => none
  | _ :: s, 0 => some s
  | a :: s, i + 1 =>
      if i + 1 < a.utf8Size then none
      else (removeAtByte s (i + 1 - a.utf8Size)).map (a :: ·)

/-- `App::move_cursor_left`. -/
def App.move_cursor_left (s : App α) : App α :=
  if s.cursor_position > 0 then { s with cursor_position := s.cursor_position - 1 } else s

/-- `App::move_cursor_right` (`self.search_input.len()` is the byte length). -/
def App.move_cursor_right (s : App α) : App α :=
  if s.cursor_position < byteLen s.search_input then
    { s with cursor_position := s.cursor_position + 1 }
  else s

/-- `App::enter_char`: insert at the byte index `cursor_position`, then
`move_cursor_right` (against the grown buffer). -/
def App.enter_char (s : App α) (new_char : Char) : Option (App α) :=
  (insertAtByte s.search_input s.cursor_position new_char).map
    (fun buf => App.move_cursor_right { s with search_input := buf })

/-- `App::delete_char`: if `cursor_position > 0` and the buffer is nonempty,
remove at byte index `cursor_position - 1`, then `move_cursor_left`. -/
def App.delete_char (s : App α) : Option (App α) :=
  if s.cursor_position > 0 ∧ ¬s.search_input.isEmpty then
    (removeAtByte s.search_input (s.cursor_position - 1)).map
      (fun buf => App.move_cursor_left { s with search_input := buf })
  else some s

/-- `App::submit_search`. -/
def App.submit_search (s : App α) : App α :=
  let s' :=
    if s.search_input.isEmpty then { s with active_search_symbol := none }
    else { s with active_search_symbol := some (upperStr s.search_input) }
  { s' with scroll_offset := 0 }

/-- The Normal-mode key dispatch of `run_app` (the `q` key returns from the
loop with the state unchanged; the two scroll-down arms receive the
`visible_trade_area_height` computed by the caller as `vrc`). -/
def App.handle_key_normal (s : App α) (k : KeyCode) (vrc : Nat) : App α :=
  match k with
  | KeyCode.char c =>
      if c = 'q' then s
      else if c = 't' then s.toggle_trade_type_filter
      else if c = 'e' ∨ c = '/' then { s with input_mode := InputMode.Editing }
      else s
  | KeyCode.enter => s.submit_search
  | KeyCode.up => s.scroll_up
  | KeyCode.down => s.scroll_down vrc
  | KeyCode.pageUp => App.scroll_up^[10] s
  | KeyCode.pageDown => (fun a => App.scroll_down a vrc)^[10] s
  | _ => s

/-- The Editing-mode key dispatch of `run_app`. The result is `none`
exactly when the underlying `String::insert` / `String::remove` panics. -/
def App.handle_key_editing (s : App α) (k : KeyCode) : Option (App α) :=
  match k with
  | KeyCode.char c => s.enter_char c
  | KeyCode.enter => some { s.submit_search with input_mode := InputMode.Normal }
  | KeyCode.backspace => s.delete_char
  | KeyCode.left => some s.move_cursor_left
  | KeyCode.right => some s.move_cursor_right
  | KeyCode.esc => some { s with input_mode := InputMode.Normal }
  | KeyCode.home => some { s with cursor_position := 0 }
  | KeyCode.endKey => some { s with cursor_position := byteLen s.search_input }
  | _ => some s

/-- One key dispatch of `run_app`, by input mode. -/
def App.handle_key (s : App α) (k : KeyCode) (vrc : Nat) : Option (App α) :=
  match s.input_mode with
  | InputMode.Normal => some (s.handle_key_normal k vrc)
  | InputMode.Editing => s.handle_key_editing k

/-- Iterated key handling (`none` = a panic occurred somewhere). -/
def runKeys (s : App α) (ks : List KeyCode) (vrc : Nat) : Option (App α) :=
  ks.foldlM (fun a k => App.handle_key a k vrc) s

/-- The scroll keys of Normal mode (not part of the §4.5 edit/filter
transition table). -/
def isScrollKey (k : KeyCode) : Bool :=
  match k with
  | KeyCode.up => true
  | KeyCode.down => true
  | KeyCode.pageUp => true
  | KeyCode.pageDown => true
  | _ => false

/-- The clamping pass of `draw_trades_table` on `scroll_offset`, as a
function of the visible length, the visible row count and the incoming
offset. -/
def clamp_offset (len vrc off : Nat) : Nat :=
  let off1 := if len = 0 then 0 else if off ≥ len then len - 1 else off
  if len > vrc ∧ off1 > len - vrc then len - vrc else off1

/-- The row slice rendered by `draw_trades_table`:
`rows[start .. min (start + visible_row_count) len]` when the list is
nonempty and `start` is in range, otherwise empty. -/
def rendered_slice (trades : List (Trade α)) (vrc start : Nat) : List (Trade α) :=
  if ¬trades.isEmpty ∧ start < trades.length then
    (trades.drop start).take (min (start + vrc) trades.length - start)
  else []

/-- Truncation of a nonnegative rational to a natural number, modelling the
Rust cast `as u16` applied to a nonnegative float. -/
def ratFloorNat (q : ℚ) : Nat := Int.toNat ⌊q⌋

/-- The scrollbar thumb height of `draw_trades_table`:
`((view_height / content_height) * track_height).max(1.0) as u16`,
in exact rational arithmetic. -/
def scrollbar_thumb_height (vrc n track : Nat) : Nat :=
  ratFloorNat (max 1 ((vrc : ℚ) / (n : ℚ) * (track : ℚ)))

/-- The clamped scrollbar thumb position of `draw_trades_table`:
`((offset / scrollable_range) * movement_range) as u16`, clamped to
`track.saturating_sub(thumb)`, in exact rational arithmetic. -/
def scrollbar_pos (off n vrc track : Nat) : Nat :=
  let h := scrollbar_thumb_height vrc n track
  let scrollable_content_range := n - vrc
  let scrollbar_movement_range := track - h
  let p :=
    if scrollable_content_range > 0 then
      ratFloorNat ((off : ℚ) / (scrollable_content_range : ℚ) * (scrollbar_movement_range : ℚ))
    else 0
  min p (track - h)

/-- A concrete Buy trade: alice buys 10 COIN. -/
def aliceBuy : Trade ℚ where
  timestamp := []
  trade_type_val := "live-trade".toList
  action := "BUY".toList
  username := "alice".toList
  amount := 10
  coin_symbol := "COIN".toList
  total_value := 0
  price := 0

/-- A concrete Sell trade: alice sells 4 COIN. -/
def aliceSell : Trade ℚ :=
  { aliceBuy with action := "SELL".toList, amount := 4 }

theorem recompute_cons (fadd fsub : α → α → α) (zero : α) (t : Trade α)
    (log : List (Trade α)) :
    recompute fadd fsub zero (t :: log)
      = applyDelta fadd fsub zero (recompute fadd fsub zero log) t := by
  simp [recompute, List.foldl_append]

/-- C1: for every sequence of trades ingested one at a time into a ledger
(starting from any state whose balances match its log), the resulting
balances mapping is identical — same keys and, for arbitrary addition and
subtraction operations on the quantity carrier, hence bit-for-bit for
`f64` — to the mapping produced by running
`recalculate_balances_from_trades` once over the resulting newest-first
log. -/
theorem balance_equivalence (fadd fsub : α → α → α) (zero : α) (s : App α)
    (h : s.user_balances = recompute fadd fsub zero s.all_trades)
    (ts : List (Trade α)) :
    (ingestAll fadd fsub zero s ts).user_balances
      = recompute fadd fsub zero (ingestAll fadd fsub zero s ts).all_trades := by
  induction ts generalizing s with
  | nil => simpa [ingestAll] using h
  | cons t ts ih =>
      have hstep : (App.add_trade fadd fsub zero s t).user_balances
          = recompute fadd fsub zero (App.add_trade fadd fsub zero s t).all_trades := by
        simp [App.add_trade, recompute_cons, h]
      simpa [ingestAll] using ih _ hstep

theorem balance_equivalence_witness :
    (App.new (α := ℚ) []).user_balances
        = recompute (· + ·) (· - ·) 0 (App.new (α := ℚ) []).all_trades
    ∧ (ingestAll (· + ·) (· - ·) 0 (App.new []) [aliceBuy, aliceSell]).user_balances
        = recompute (· + ·) (· - ·) 0
            (ingestAll (· + ·) (· - ·) 0 (App.new []) [aliceBuy, aliceSell]).all_trades :=
  ⟨rfl, balance_equivalence (· + ·) (· - ·) 0 (App.new []) rfl [aliceBuy, aliceSell]⟩

/-- C2: `add_trade` prepends the trade to the front of the log (so after
ingesting T1, T2, T3 in that order the log reads [T3, T2, T1, ...prior])
and changes `balances[username][coin_symbol]` by `+amount` for `"BUY"`,
`-amount` for `"SELL"`, and `0` for any other action (the entry treated as
`0` when absent), leaving every other entry untouched; in particular Buy 10
COIN by alice then Sell 4 COIN by alice yields
`balances["alice"]["COIN"] = 6`. -/
theorem ingest_postcondition (s : App ℚ) (t : Trade ℚ) :
    (App.add_trade (· + ·) (· - ·) 0 s t).all_trades = t :: s.all_trades
    ∧ (App.add_trade (· + ·) (· - ·) 0 s t).user_balances t.username t.coin_symbol
        = some ((s.user_balances t.username t.coin_symbol).getD 0 +
            (if t.action = "BUY".toList then t.amount
             else if t.action = "SELL".toList then -t.amount else 0))
    ∧ (∀ u c, ¬(u = t.username ∧ c = t.coin_symbol) →
        (App.add_trade (· + ·) (· - ·) 0 s t).user_balances u c = s.user_balances u c)
    ∧ (∀ t1 t2 t3 : Trade ℚ,
        (ingestAll (· + ·) (· - ·) 0 s [t1, t2, t3]).all_trades
          = t3 :: t2 :: t1 :: s.all_trades)
    ∧ (ingestAll (· + ·) (· - ·) 0 (App.new []) [aliceBuy, aliceSell]).user_balances
        "alice".toList "COIN".toList = some 6 := by
  refine ⟨rfl, ?_, ?_, fun t1 t2 t3 => rfl, ?_⟩
  · simp [App.add_trade, applyDelta]
    split_ifs with h1 h2
    · rfl
    · exact sub_eq_add_neg _ _
    · exact (add_zero _).symm
  · intro u c h
    simp [App.add_trade, applyDelta, if_neg h]
  · simp +decide [ingestAll, App.add_trade, applyDelta, App.new, aliceBuy, aliceSell]
    norm_num

theorem ingest_postcondition_witness :
    ¬("bob".toList = aliceBuy.username ∧ "COIN".toList = aliceBuy.coin_symbol)
    ∧ (App.add_trade (· + ·) (· - ·) 0 (App.new []) aliceBuy).user_balances
        "bob".toList "COIN".toList
      = (App.new (α := ℚ) []).user_balances "bob".toList "COIN".toList :=
  ⟨by decide, (ingest_postcondition (App.new []) aliceBuy).2.2.1 _ _ (by decide)⟩

/-- C3: after the clamping pass of `draw_trades_table`, the offset satisfies
`0 ≤ offset ≤ max 0 (N − 1)` (the lower bound is inherent to `Nat`), and
`offset ≤ N − visible_row_count` whenever `N > visible_row_count`; when
`N = 0` the offset is forced to `0` and the rendered slice is empty. -/
theorem scroll_clamp (trades : List (Trade ℚ)) (vrc off : Nat) :
    clamp_offset trades.length vrc off ≤ max 0 (trades.length - 1)
    ∧ (trades.length > vrc → clamp_offset trades.length vrc off ≤ trades.length - vrc)
    ∧ (trades.length = 0 → clamp_offset trades.length vrc off = 0
        ∧ rendered_slice trades vrc (clamp_offset trades.length vrc off) = []) := by
  have hmain : clamp_offset trades.length vrc off ≤ max 0 (trades.length - 1)
      ∧ (trades.length > vrc → clamp_offset trades.length vrc off ≤ trades.length - vrc)
      ∧ (trades.length = 0 → clamp_offset trades.length vrc off = 0) := by
    simp only [clamp_offset, Nat.zero_max]
    split_ifs <;> omega
  refine ⟨hmain.1, hmain.2.1, fun h0 => ⟨hmain.2.2 h0, ?_⟩⟩
  have hnil : trades = [] := List.length_eq_zero.mp h0
  subst hnil
  simp [rendered_slice]

theorem scroll_clamp_witness :
    ([aliceBuy, aliceSell].length > 1
      ∧ clamp_offset [aliceBuy, aliceSell].length 1 5 ≤ [aliceBuy, aliceSell].length - 1)
    ∧ (([] : List (Trade ℚ)).length = 0
      ∧ clamp_offset ([] : List (Trade ℚ)).length 0 3 = 0
      ∧ rendered_slice ([] : List (Trade ℚ)) 0
          (clamp_offset ([] : List (Trade ℚ)).length 0 3) = []) :=
  ⟨⟨by decide, (scroll_clamp [aliceBuy, aliceSell] 1 5).2.1 (by decide)⟩,
   rfl, ((scroll_clamp [] 0 3).2.2 rfl).1, ((scroll_clamp [] 0 3).2.2 rfl).2⟩

/-- A ledger of ten identical visible trades with the offset at 8, used to
exercise the clamping arm of `scroll_down`. -/
def exApp10 : App ℚ :=
  { App.new (List.replicate 10 aliceBuy) with scroll_offset := 8 }

/-- C4 counterexample: with `N = 10` visible trades, `visible_row_count = 3`
and `offset = 8`, neither of the claim's increment conditions holds
(`8 ≥ 10 − 3` and `10 > 3`), so the claim predicts a no-op; but
`scroll_down` takes its third arm and clamps the offset down to `7`. -/
theorem scroll_down_claim_counterexample :
    exApp10.get_visible_trades.length = 10
    ∧ exApp10.scroll_offset = 8
    ∧ ¬(10 > 3 ∧ 8 < 10 - 3)
    ∧ ¬(10 ≤ 3 ∧ 8 < 10 - 1)
    ∧ (exApp10.scroll_down 3).scroll_offset = 7 :=
  ⟨rfl, rfl, by decide, by decide, rfl⟩

/-- C4 (amended): one scroll-down action increments the offset by exactly 1
when `offset < N − 1` and (`N ≤ visible_row_count` or
`offset < N − visible_row_count`); when `N > visible_row_count` and
`N − visible_row_count ≤ offset < N − 1` it instead clamps the offset down
to `N − visible_row_count`; otherwise it leaves the offset unchanged; and
it never changes any other component of the view state. -/
theorem scroll_down_step (s : App ℚ) (vrc : Nat) :
    (s.scroll_down vrc).scroll_offset =
      (if s.get_visible_trades.length > 0
          ∧ s.scroll_offset < s.get_visible_trades.length - 1 then
        if s.get_visible_trades.length ≤ vrc
            ∨ s.scroll_offset < s.get_visible_trades.length - vrc then
          s.scroll_offset + 1
        else s.get_visible_trades.length - vrc
      else s.scroll_offset)
    ∧ (s.scroll_down vrc).search_input = s.search_input
    ∧ (s.scroll_down vrc).active_search_symbol = s.active_search_symbol
    ∧ (s.scroll_down vrc).all_trades = s.all_trades
    ∧ (s.scroll_down vrc).user_balances = s.user_balances
    ∧ (s.scroll_down vrc).trade_type_filter = s.trade_type_filter
    ∧ (s.scroll_down vrc).input_mode = s.input_mode
    ∧ (s.scroll_down vrc).cursor_position = s.cursor_position := by
  simp only [App.scroll_down]
  split_ifs <;> (simp_all; try omega)

theorem move_cursor_left_scroll (s : App α) :
    (App.move_cursor_left s).scroll_offset = s.scroll_offset := by
  simp only [App.move_cursor_left]
  split_ifs <;> rfl

theorem move_cursor_right_scroll (s : App α) :
    (App.move_cursor_right s).scroll_offset = s.scroll_offset := by
  simp only [App.move_cursor_right]
  split_ifs <;> rfl

/-- The view state used to exhibit the type-filter toggle resetting the
scroll offset. -/
def exAppToggle : App ℚ := { App.new [] with scroll_offset := 5 }

/-- C5 counterexample: in Normal mode with `scroll_offset = 5`, the
toggle-filter key — which is not a search commit — resets the offset
to 0. -/
theorem frame_claim_counterexample :
    exAppToggle.input_mode = InputMode.Normal
    ∧ exAppToggle.scroll_offset = 5
    ∧ App.handle_key exAppToggle (KeyCode.char 't') 0
        = some exAppToggle.toggle_trade_type_filter
    ∧ exAppToggle.toggle_trade_type_filter.scroll_offset = 0 :=
  ⟨rfl, rfl, rfl, rfl⟩

/-- C5 (amended): every §4.5 input-state-machine transition — every handled
key other than the Normal-mode scroll keys — leaves `scroll_offset`
unchanged, except a search commit (the Enter key, in either mode) and the
type-filter toggle (the `t` key in Normal mode), both of which reset it
to 0. -/
theorem frame_scroll_offset (s : App ℚ) (k : KeyCode) (vrc : Nat) (s' : App ℚ)
    (hk : isScrollKey k = false)
    (h : App.handle_key s k vrc = some s') :
    s'.scroll_offset =
      if k = KeyCode.enter ∨ (s.input_mode = InputMode.Normal ∧ k = KeyCode.char 't')
      then 0 else s.scroll_offset := by
  cases hmode : s.input_mode with
  | Normal =>
      simp only [App.handle_key, hmode, Option.some.injEq] at h
      subst h
      simp only [hmode]
      cases k with
      | char c =>
          simp only [App.handle_key_normal, KeyCode.char.injEq, reduceCtorEq,
            false_or, true_and]
          split_ifs with h1 h2 h3 <;>
            simp_all [App.toggle_trade_type_filter]
      | enter => rfl
      | up => simp [isScrollKey] at hk
      | down => simp [isScrollKey] at hk
      | pageUp => simp [isScrollKey] at hk
      | pageDown => simp [isScrollKey] at hk
      | backspace => rfl
      | left => rfl
      | right => rfl
      | esc => rfl
      | home => rfl
      | endKey => rfl
      | otherKey => rfl
  | Editing =>
      simp only [App.handle_key, hmode] at h
      cases k with
      | char c =>
          simp only [App.handle_key_editing, App.enter_char] at h
          cases hins : insertAtByte s.search_input s.cursor_position c with
          | none => rw [hins] at h; simp at h
          | some buf =>
              rw [hins] at h
              simp only [Option.map_some', Option.some.injEq] at h
              simp [← h, move_cursor_right_scroll]
      | backspace =>
          simp only [App.handle_key_editing, App.delete_char] at h
          split_ifs at h with hg
          · cases hrem : removeAtByte s.search_input (s.cursor_position - 1) with
            | none => rw [hrem] at h; simp at h
            | some buf =>
                rw [hrem] at h
                simp only [Option.map_some', Option.some.injEq] at h
                simp [← h, move_cursor_left_scroll]
          · simp only [Option.some.injEq] at h
            simp [← h]
      | enter =>
          simp only [App.handle_key_editing, Option.some.injEq] at h
          subst h
          rw [if_pos (Or.inl rfl)]
          rfl
      | left =>
          simp only [App.handle_key_editing, Option.some.injEq] at h
          simp [← h, move_cursor_left_scroll]
      | right =>
          simp only [App.handle_key_editing, Option.some.injEq] at h
          simp [← h, move_cursor_right_scroll]
      | up => simp [isScrollKey] at hk
      | down => simp [isScrollKey] at hk
      | pageUp => simp [isScrollKey] at hk
      | pageDown => simp [isScrollKey] at hk
      | esc =>
          simp only [App.handle_key_editing, Option.some.injEq] at h
          simp [← h]
      | home =>
          simp only [App.handle_key_editing, Option.some.injEq] at h
          simp [← h]
      | endKey =>
          simp only [App.handle_key_editing, Option.some.injEq] at h
          simp [← h]
      | otherKey =>
          simp only [App.handle_key_editing, Option.some.injEq] at h
          simp [← h]

theorem frame_scroll_offset_witness :
    isScrollKey KeyCode.esc = false
    ∧ App.handle_key exAppToggle KeyCode.esc 0
        = some { exAppToggle with input_mode := InputMode.Normal }
    ∧ ({ exAppToggle with input_mode := InputMode.Normal } : App ℚ).scroll_offset
        = exAppToggle.scroll_offset :=
  ⟨rfl, rfl, by
    have h := frame_scroll_offset exAppToggle KeyCode.esc 0
      { exAppToggle with input_mode := InputMode.Normal } rfl rfl
    rw [h, if_neg (by decide)]⟩

/-- Scenario-B trade: live-trade record by u1. -/
def tLive1 : Trade ℚ := { aliceBuy with trade_type_val := "live-trade".toList, username := "u1".toList }

/-- Scenario-B trade: all-trades record by u2. -/
def tAll1 : Trade ℚ := { aliceBuy with trade_type_val := "all-trades".toList, username := "u2".toList }

/-- Scenario-B trade: live-trade record by u3. -/
def tLive2 : Trade ℚ := { aliceBuy with trade_type_val := "live-trade".toList, username := "u3".toList }

/-- Scenario-B trade: all-trades record by u4. -/
def tAll2 : Trade ℚ := { aliceBuy with trade_type_val := "all-trades".toList, username := "u4".toList }

/-- Scenario-B trade: a record with an unrelated channel tag. -/
def tOther : Trade ℚ := { aliceBuy with trade_type_val := "chat".toList, username := "u5".toList }

/-- Scenario-B ledger: five trades, exactly two of them tagged
"all-trades", no filters active yet. -/
def scenB_app : App ℚ := App.new [tLive1, tAll1, tLive2, tAll2, tOther]

/-- C6: with the type filter in the "all" state (the state reached by one
toggle from `none`, stored as `"all-trades"`) and a log of 5 trades of
which exactly 2 have trade_type `"all-trades"`, `get_visible_trades`
returns exactly those 2 in their original relative order; in general the
type-filter comparison is case-insensitive on `trade_type_val`, and a
filter of `none` passes every record. -/
theorem type_filter_scenarioB :
    (scenB_app.toggle_trade_type_filter.trade_type_filter = some ("all-trades".toList)
      ∧ scenB_app.toggle_trade_type_filter.get_visible_trades = [tAll1, tAll2])
    ∧ (∀ (s : App ℚ) (f : Str) (t : Trade ℚ), s.trade_type_filter = some f →
        s.active_search_symbol = none →
        (t ∈ s.get_visible_trades ↔
          t ∈ s.all_trades ∧ lowerStr t.trade_type_val = lowerStr f))
    ∧ (∀ s : App ℚ, s.trade_type_filter = none → s.active_search_symbol = none →
        s.get_visible_trades = s.all_trades) := by
  refine ⟨⟨rfl, rfl⟩, ?_, ?_⟩
  · intro s f t hf hs
    simp [App.get_visible_trades, App.trades_after_type_filter, hf, hs,
      List.mem_filter]
  · intro s hf hs
    simp [App.get_visible_trades, App.trades_after_type_filter, hf, hs]

theorem type_filter_scenarioB_witness :
    scenB_app.toggle_trade_type_filter.trade_type_filter = some ("all-trades".toList)
    ∧ scenB_app.toggle_trade_type_filter.active_search_symbol = none
    ∧ (tAll1 ∈ scenB_app.toggle_trade_type_filter.get_visible_trades ↔
        tAll1 ∈ scenB_app.toggle_trade_type_filter.all_trades
          ∧ lowerStr tAll1.trade_type_val = lowerStr ("all-trades".toList)) :=
  ⟨rfl, rfl, type_filter_scenarioB.2.1 scenB_app.toggle_trade_type_filter
    ("all-trades".toList) tAll1 rfl rfl⟩

/-- C7: whenever `N > visible_row_count` (the only case in which the
scrollbar is drawn) and the track height is at least 1, the thumb height is
at least 1 and the clamped thumb position plus the thumb height fits inside
the track. -/
theorem scrollbar_bounds (n vrc off track : Nat) (h1 : vrc < n) (h2 : 1 ≤ track) :
    1 ≤ scrollbar_thumb_height vrc n track
    ∧ scrollbar_pos off n vrc track + scrollbar_thumb_height vrc n track ≤ track := by
  have hthumb_le : scrollbar_thumb_height vrc n track ≤ track := by
    have hn : (0 : ℚ) < n := by exact_mod_cast Nat.zero_lt_of_lt h1
    have hq : (vrc : ℚ) / (n : ℚ) ≤ 1 := by
      rw [div_le_one hn]
      exact_mod_cast Nat.le_of_lt h1
    have hle : (vrc : ℚ) / (n : ℚ) * (track : ℚ) ≤ (track : ℚ) := by
      calc (vrc : ℚ) / (n : ℚ) * (track : ℚ) ≤ 1 * (track : ℚ) :=
            mul_le_mul_of_nonneg_right hq (by positivity)
        _ = (track : ℚ) := one_mul _
    have hmax : max 1 ((vrc : ℚ) / (n : ℚ) * (track : ℚ)) ≤ (track : ℚ) := by
      apply max_le _ hle
      exact_mod_cast h2
    have hfloor : ⌊max 1 ((vrc : ℚ) / (n : ℚ) * (track : ℚ))⌋ ≤ (track : ℤ) := by
      have := Int.floor_le_floor hmax
      simpa using this
    unfold scrollbar_thumb_height ratFloorNat
    omega
  have hthumb_ge : 1 ≤ scrollbar_thumb_height vrc n track := by
    have hfloor : (1 : ℤ) ≤ ⌊max 1 ((vrc : ℚ) / (n : ℚ) * (track : ℚ))⌋ := by
      have := Int.floor_le_floor (le_max_left 1 ((vrc : ℚ) / (n : ℚ) * (track : ℚ)))
      simpa using this
    unfold scrollbar_thumb_height ratFloorNat
    omega
  have hpos : scrollbar_pos off n vrc track ≤ track - scrollbar_thumb_height vrc n track := by
    unfold scrollbar_pos
    exact min_le_right _ _
  exact ⟨hthumb_ge, by omega⟩

theorem scrollbar_bounds_witness :
    ((3 : Nat) < 10 ∧ (1 : Nat) ≤ 4)
    ∧ 1 ≤ scrollbar_thumb_height 3 10 4
    ∧ scrollbar_pos 8 10 3 4 + scrollbar_thumb_height 3 10 4 ≤ 4 :=
  ⟨⟨by decide, by decide⟩, (scrollbar_bounds 10 3 8 4 (by decide) (by decide)).1,
   (scrollbar_bounds 10 3 8 4 (by decide) (by decide)).2⟩

/-- Scenario-C trade with lowercase ticker btc. -/
def tBtc1 : Trade ℚ := { aliceBuy with coin_symbol := "btc".toList, username := "v1".toList }

/-- Scenario-C trade with uppercase ticker BTC. -/
def tBtc2 : Trade ℚ := { aliceBuy with coin_symbol := "BTC".toList, username := "v2".toList }

/-- Scenario-C trade with mixed-case ticker Btc. -/
def tBtc3 : Trade ℚ := { aliceBuy with coin_symbol := "Btc".toList, username := "v3".toList }

/-- Scenario-C trade with a different ticker. -/
def tEth : Trade ℚ := { aliceBuy with coin_symbol := "ETH".toList, username := "v4".toList }

/-- Scenario-C view: four trades and an active search for BTC. -/
def scenC_app : App ℚ :=
  { App.new [tBtc1, tBtc2, tBtc3, tEth] with active_search_symbol := some ("BTC".toList) }

/-- C8: committing the search buffer "btc" sets `active_search_symbol` to
"BTC", and with an active symbol `get_visible_trades` keeps exactly the
records whose `coin_symbol` upper-cases to the stored symbol: records with
coin_symbol "btc", "BTC" and "Btc" all match, while "ETH" is excluded. -/
theorem search_case_insensitive :
    (∀ s : App ℚ, s.search_input = "btc".toList →
        s.submit_search.active_search_symbol = some ("BTC".toList))
    ∧ (∀ (s : App ℚ) (sym : Str) (t : Trade ℚ), s.active_search_symbol = some sym →
        (t ∈ s.get_visible_trades ↔
          t ∈ s.trades_after_type_filter ∧ upperStr t.coin_symbol = sym))
    ∧ scenC_app.get_visible_trades = [tBtc1, tBtc2, tBtc3] := by
  refine ⟨?_, ?_, rfl⟩
  · intro s h
    simp [App.submit_search, h]
    decide
  · intro s sym t hs
    simp [App.get_visible_trades, hs, List.mem_filter]

theorem search_case_insensitive_witness :
    ({ App.new (α := ℚ) [] with search_input := "btc".toList } : App ℚ).search_input
        = "btc".toList
    ∧ ({ App.new (α := ℚ) [] with search_input := "btc".toList } : App ℚ).submit_search.active_search_symbol
        = some ("BTC".toList) :=
  ⟨rfl, search_case_insensitive.1 { App.new [] with search_input := "btc".toList } rfl⟩

/-- C9: committing the search buffer sets `active_search_symbol` to `none`
when the buffer is empty and to the buffer upper-cased verbatim (no
whitespace trimming) when non-empty, and in both cases resets
`scroll_offset` to 0. -/
theorem submit_search_rule (s : App ℚ) :
    (s.search_input = [] → s.submit_search.active_search_symbol = none)
    ∧ (s.search_input ≠ [] →
        s.submit_search.active_search_symbol = some (upperStr s.search_input))
    ∧ s.submit_search.scroll_offset = 0 := by
  refine ⟨fun h => ?_, fun h => ?_, rfl⟩
  · simp [App.submit_search, h]
  · rcases hq : s.search_input with _ | ⟨a, l⟩
    · exact absurd hq h
    · simp [App.submit_search, hq]

/-- A view state with a previously committed symbol, a nonzero offset and
an empty edit buffer. -/
def exAppPrior : App ℚ :=
  { App.new [] with active_search_symbol := some ("BTC".toList), scroll_offset := 5 }

theorem submit_search_rule_witness :
    exAppPrior.search_input = []
    ∧ exAppPrior.active_search_symbol = some ("BTC".toList)
    ∧ exAppPrior.submit_search.active_search_symbol = none
    ∧ exAppPrior.submit_search.scroll_offset = 0 :=
  ⟨rfl, rfl, (submit_search_rule exAppPrior).1 rfl, (submit_search_rule exAppPrior).2.2⟩

/-- An empty app already in Editing mode. -/
def exAppEditing : App ℚ := { App.new [] with input_mode := InputMode.Editing }

/-- C10 (refuted — the claimed invariant fails on multi-byte input): in
Editing mode from the empty buffer, typing 'é' (2 UTF-8 bytes) advances
`cursor_position` to 1, a byte index strictly inside the character, so the
next character insert reaches `String::insert`'s character-boundary panic
(modelled as `none`). -/
theorem editing_cursor_panic :
    (App.handle_key exAppEditing (KeyCode.char 'é') 0).map App.cursor_position = some 1
    ∧ insertAtByte ['é'] 1 'a' = none
    ∧ runKeys exAppEditing [KeyCode.char 'é', KeyCode.char 'a'] 0 = none :=
  ⟨rfl, rfl, rfl⟩
